import Mathlib

/-!
Verification development for the NetDiscordBot shift-tracking core.

This file shallowly embeds the shift-clock lifecycle of
`src/cogs/shift_tracking.py` (the SQLite `shifts` table and the
`_get_open_shift` / `_start_shift` / `_end_shift` / `_force_end_shift` /
`auto_end_for_inactivity` operations, plus the `_format_duration`
formatter), the presence registry consumed through
`presence_state.is_in_game`, and the scheduled follow-up timer of
`src/bot.py` (`schedule_run_followup` / `cancelshift_cmd`), and proves the
specified properties about them.

Machine integers: Discord user and guild ids are arbitrary-precision
Python ints, modelled as `Nat`; timestamps are timezone-aware datetimes
whose pairwise differences in whole seconds are signed, modelled as `Int`
second counts.
-/

/-- A row of the SQLite `shifts` table (`database.init_db`):
`id INTEGER PRIMARY KEY AUTOINCREMENT, user_id, guild_id,
start_time TEXT NOT NULL, end_time TEXT` (nullable).  The ISO-8601
text timestamps are modelled by their signed second counts. -/
structure ShiftRow where
  id : Nat
  user_id : Nat
  guild_id : Nat
  start_time : Int
  end_time : Option Int
deriving DecidableEq, Repr

/-- The `shifts` table: its rows in rowid order, plus the next
AUTOINCREMENT id. -/
structure ShiftsDb where
  rows : List ShiftRow
  nextId : Nat
deriving DecidableEq, Repr

/-- A freshly initialised database (`init_db`): no rows, AUTOINCREMENT
starts at 1. -/
def emptyDb : ShiftsDb := { rows := [], nextId := 1 }

/-- The WHERE clause of `_get_open_shift`:
`user_id = ? AND guild_id = ? AND end_time IS NULL`. -/
def isOpenFor (guild_id user_id : Nat) (r : ShiftRow) : Bool :=
  r.user_id == user_id && r.guild_id == guild_id && r.end_time.isNone

/-- `ShiftTracking._get_open_shift`: `SELECT ... FROM shifts WHERE
user_id = ? AND guild_id = ? AND end_time IS NULL` with `fetchone`,
i.e. the first matching row in rowid order. -/
def _get_open_shift (guild_id user_id : Nat) (db : ShiftsDb) : Option ShiftRow :=
  db.rows.find? (isOpenFor guild_id user_id)

/-- `ShiftTracking._start_shift`: refuses when an open shift exists
(the Python returns `(False, "⏱ You already have an active clock.")`),
otherwise INSERTs a new row with `start_time = now` and NULL `end_time`
and returns success (the Python returns `(True, started-at message)`).
The human-readable message strings are elided; the Boolean carries the
same information. -/
def _start_shift (guild_id user_id : Nat) (now : Int) (db : ShiftsDb) :
    Bool × ShiftsDb :=
  match _get_open_shift guild_id user_id db with
  | some _ => (false, db)
  | none =>
      (true,
        { rows := db.rows ++
            [{ id := db.nextId, user_id := user_id, guild_id := guild_id,
               start_time := now, end_time := none }],
          nextId := db.nextId + 1 })

/-- Space-joining of `" ".join(parts)` in `_format_duration`. -/
def joinSpace : List String → String
  | [] => ""
  | [p] => p
  | p :: ps => p ++ " " ++ joinSpace ps

/-- The body of `ShiftTracking._format_duration` after the
`max(0, seconds)` clamp: `divmod(s, 60)` twice, then the `h`/`m`/`s`
parts with the `if sec or not parts` rule, joined by spaces. -/
def durationParts (s : Nat) : List String :=
  let minutes := s / 60
  let sec := s % 60
  let hours := minutes / 60
  let minutes := minutes % 60
  let parts :=
    (if hours ≠ 0 then [toString hours ++ "h"] else []) ++
    (if minutes ≠ 0 then [toString minutes ++ "m"] else [])
  if sec ≠ 0 || parts.isEmpty then parts ++ [toString sec ++ "s"] else parts

/-- `ShiftTracking._format_duration`: clamps negative inputs via
`max(0, seconds)` and renders `"<h>h <m>m <s>s"` parts. -/
def _format_duration (seconds : Int) : String :=
  joinSpace (durationParts (max 0 seconds).toNat)

/-- `ShiftTracking._end_shift`: returns `(False, None)` when no open
shift exists, else computes `duration = int((now - start).total_seconds())`,
formats it, and UPDATEs the row's `end_time` by id.  `(ok, duration_str)`
is modelled as `Option String` (`some` ↔ `ok = True`). -/
def _end_shift (guild_id user_id : Nat) (now : Int) (db : ShiftsDb) :
    Option String × ShiftsDb :=
  match _get_open_shift guild_id user_id db with
  | none => (none, db)
  | some row =>
      let duration_sec : Int := now - row.start_time
      let duration_str := _format_duration duration_sec
      (some duration_str,
        { db with rows := db.rows.map (fun r =>
            if r.id == row.id then { r with end_time := some now } else r) })

/-- `ShiftTracking._force_end_shift`: "Admin version of end_shift
(same logic, separated for clarity)." -/
def _force_end_shift (guild_id user_id : Nat) (now : Int) (db : ShiftsDb) :
    Option String × ShiftsDb :=
  _end_shift guild_id user_id now db

/-- Number of open rows for a `(guild_id, user_id)` pair. -/
def openCount (guild_id user_id : Nat) (db : ShiftsDb) : Nat :=
  db.rows.countP (isOpenFor guild_id user_id)

/-- Modelled from the spec: the presence registry behind
`presence_state.is_in_game` is missing from the sources — the copy of
`presence_state.py` in the repository holds only the Bloxlink lookup,
while `src/cogs/shift_tracking.py` imports `is_in_game` from it.  Per
spec §3/§4.1, the registry keeps one boolean entry per user id,
last-write-wins; it is modelled as a write log whose most recent entry
for a user wins, observationally a dictionary. -/
def PresenceState : Type := List (Nat × Bool)

/-- Modelled from the spec: the registry before any event. -/
def emptyPresence : PresenceState := []

/-- Modelled from the spec: `mark_present(user_id)` — idempotent,
sets/creates the entry with `present = true`, no error conditions. -/
def mark_present (user_id : Nat) (s : PresenceState) : PresenceState :=
  (user_id, true) :: s

/-- Modelled from the spec: `mark_absent(user_id)` — idempotent,
sets/creates the entry with `present = false`. -/
def mark_absent (user_id : Nat) (s : PresenceState) : PresenceState :=
  (user_id, false) :: s

/-- Modelled from the spec: `is_present(user_id) -> boolean`, returning
`false` for unknown ids and never raising; the most recent write for the
id wins. -/
def is_present (s : PresenceState) (user_id : Nat) : Bool :=
  ((s.find? (fun p => p.1 == user_id)).map (fun p => p.2)).getD false

/-- `presence_state.is_in_game` as imported by
`src/cogs/shift_tracking.py`: the presence query of the registry. -/
def is_in_game (s : PresenceState) (user_id : Nat) : Bool :=
  is_present s user_id

/-- A presence-registry event, for stating facts about users on whom
neither operation was ever called. -/
inductive PresenceOp where
  | pres (user_id : Nat)
  | abs (user_id : Nat)
deriving DecidableEq, Repr

/-- The user id an event concerns. -/
def PresenceOp.uid : PresenceOp → Nat
  | .pres u => u
  | .abs u => u

/-- Apply one presence-registry event. -/
def applyPresenceOp (s : PresenceState) (op : PresenceOp) : PresenceState :=
  match op with
  | .pres u => mark_present u s
  | .abs u => mark_absent u s

/-- Apply a sequence of presence-registry events in order. -/
def applyPresenceOps : List PresenceOp → PresenceState → PresenceState
  | [], s => s
  | op :: ops, s => applyPresenceOps ops (applyPresenceOp s op)

/-- Outcome of the `member.send(message)` direct-message attempt inside
`auto_end_for_inactivity`: delivered, refused with `discord.Forbidden`
(the only exception the `try`/`except` catches), or failed with any
other exception (e.g. `discord.HTTPException`), which the code does not
catch. -/
inductive DMOutcome where
  | delivered
  | forbidden
  | otherError
deriving DecidableEq, Repr

/-- `ShiftTracking.auto_end_for_inactivity(user_id, reason)`:
`bot.get_guild(GUILD_ID)` is the `guild?` environment input; if the
guild is not found the call returns `False`.  Otherwise `_end_shift` is
called; on failure the call returns `False`.  On success, if
`guild.get_member(user_id)` finds the member (`memberFound`), a DM is
attempted and only `discord.Forbidden` is swallowed — any other
exception propagates (`Except.error`) after the database was already
updated; otherwise the call returns `True`.  The `reason` string only
shapes the message text and is elided. -/
def auto_end_for_inactivity (guild? : Option Nat) (memberFound : Bool)
    (dm : DMOutcome) (user_id : Nat) (now : Int) (db : ShiftsDb) :
    Except Unit Bool × ShiftsDb :=
  match guild? with
  | none => (.ok false, db)
  | some gid =>
      match _end_shift gid user_id now db with
      | (none, db') => (.ok false, db')
      | (some _, db') =>
          if memberFound then
            match dm with
            | .delivered => (.ok true, db')
            | .forbidden => (.ok true, db')
            | .otherError => (.error (), db')
          else (.ok true, db')

/-- Outcome of the `/startclock` slash command handler. -/
inductive StartclockResult where
  | noGuild
  | notSupervisor
  | notInGame
  | started
  | alreadyActive
deriving DecidableEq, Repr

/-- `ShiftTracking.startclock`: guild guard, `_is_supervisor_plus`
guard (an environment input here, since role sets live in Discord),
then the presence gate `is_in_game(member.id)` — "Must be in the Roblox
game to start a clock" — and finally `_start_shift`. -/
def startclock (guild? : Option Nat) (isSupervisorPlus : Bool)
    (presence : PresenceState) (member_id : Nat) (now : Int) (db : ShiftsDb) :
    StartclockResult × ShiftsDb :=
  match guild? with
  | none => (.noGuild, db)
  | some gid =>
      if !isSupervisorPlus then (.notSupervisor, db)
      else if !(is_in_game presence member_id) then (.notInGame, db)
      else
        match _start_shift gid member_id now db with
        | (true, db') => (.started, db')
        | (false, db') => (.alreadyActive, db')

/-- Outcome of the `Start` button of `ClockManageView`. -/
inductive PanelStartResult where
  | notOwner
  | started
  | alreadyActive
deriving DecidableEq, Repr

/-- `ClockManageView.start_button`: after `_check_owner` (owner or
senior staff, an environment input), it calls `_start_shift` directly —
it performs no `is_in_game` presence check. -/
def start_button (ownerOk : Bool) (guild_id member_id : Nat) (now : Int)
    (db : ShiftsDb) : PanelStartResult × ShiftsDb :=
  if ownerOk then
    match _start_shift guild_id member_id now db with
    | (true, db') => (.started, db')
    | (false, db') => (.alreadyActive, db')
  else (.notOwner, db)

/-- One operation on the shifts store, for the store invariant:
the database effects of `_start_shift`, `_end_shift`,
`_force_end_shift` and `auto_end_for_inactivity`. -/
inductive ShiftOp where
  | start (guild_id user_id : Nat) (now : Int)
  | endOp (guild_id user_id : Nat) (now : Int)
  | forceEnd (guild_id user_id : Nat) (now : Int)
  | autoEnd (guild? : Option Nat) (memberFound : Bool) (dm : DMOutcome)
      (user_id : Nat) (now : Int)
deriving DecidableEq, Repr

/-- The shifts-store effect of one operation. -/
def applyOp (db : ShiftsDb) (op : ShiftOp) : ShiftsDb :=
  match op with
  | .start g u t => (_start_shift g u t db).2
  | .endOp g u t => (_end_shift g u t db).2
  | .forceEnd g u t => (_force_end_shift g u t db).2
  | .autoEnd g? mf dm u t => (auto_end_for_inactivity g? mf dm u t db).2

/-- Apply a sequence of operations in order. -/
def applyOps : List ShiftOp → ShiftsDb → ShiftsDb
  | [], db => db
  | op :: ops, db => applyOps ops (applyOp db op)

/-- The `SHIFT_TRACK[message_id]` entry fields the follow-up timer
reads: the scheduled instant `when` and the `canceled` flag
(`src/bot.py`, `/shift` and `/cancelshift`). -/
structure FollowupInfo where
  whenT : Int
  canceled : Bool
deriving DecidableEq, Repr

/-- Program counter of the `schedule_run_followup` coroutine:
`started` (created, up to the canceled-guard and delta computation),
`sleeping` (inside `asyncio.sleep(delta)`), `finished` (returned —
either after posting, after the guard, or cancelled). -/
inductive CoroPhase where
  | started
  | sleeping
  | finished
deriving DecidableEq, Repr

/-- The state shared between `schedule_run_followup` and
`cancelshift_cmd` for one tracked shift message: the `SHIFT_TRACK`
entry, the coroutine phase, and how many times the follow-up action
(the "Shift Happening" post) has run. -/
structure FollowupWorld where
  info : Option FollowupInfo
  phase : CoroPhase
  posted : Nat
deriving DecidableEq, Repr

/-- State right after `/shift` posts the announcement: a tracker entry
with the scheduled instant and `canceled = False`, the follow-up task
created and not yet run, nothing posted. -/
def initialFollowup (whenT : Int) : FollowupWorld :=
  { info := some { whenT := whenT, canceled := false },
    phase := .started, posted := 0 }

/-- One resumption of the `schedule_run_followup` coroutine by the
event loop at instant `now`:  from `started` it returns early on a
missing tracker entry or the canceled guard, sleeps when
`delta = when - now > 0`, and otherwise posts immediately; from
`sleeping` it wakes once `now` reaches `when` and posts.  `finished`
coroutines never run again. -/
def stepFollowup (now : Int) (w : FollowupWorld) : FollowupWorld :=
  match w.phase with
  | .started =>
      match w.info with
      | none => { w with phase := .finished }
      | some info =>
          if info.canceled then { w with phase := .finished }
          else if now < info.whenT then { w with phase := .sleeping }
          else { w with phase := .finished, posted := w.posted + 1 }
  | .sleeping =>
      match w.info with
      | none => w
      | some info =>
          if now < info.whenT then w
          else { w with phase := .finished, posted := w.posted + 1 }
  | .finished => w

/-- The follow-up-related effect of `cancelshift_cmd`: when the task is
not yet done, `task.cancel()` makes the pending coroutine raise
`asyncio.CancelledError` at its suspension point and return without
posting; afterwards `info["canceled"] = True` is recorded.  Cancelling
an already-finished task is a no-op apart from the flag. -/
def cancelshift (w : FollowupWorld) : FollowupWorld :=
  let w' :=
    match w.phase with
    | .finished => w
    | _ => { w with phase := .finished }
  { w' with info := w'.info.map (fun i => { i with canceled := true }) }

/-- An event of the cooperative scheduler for one tracked shift:
a resumption of the follow-up coroutine at a given instant, or the
operator running `/cancelshift`. -/
inductive FollowupEvent where
  | run (now : Int)
  | cancel
deriving DecidableEq, Repr

/-- Apply one scheduler event. -/
def applyFollowupEvent (w : FollowupWorld) : FollowupEvent → FollowupWorld
  | .run now => stepFollowup now w
  | .cancel => cancelshift w

/-- Run a trace of scheduler events in order. -/
def runFollowupTrace : List FollowupEvent → FollowupWorld → FollowupWorld
  | [], w => w
  | e :: es, w => runFollowupTrace es (applyFollowupEvent w e)

/-! ## Helper lemmas about the shifts store -/

/-- No open row for a pair iff `_get_open_shift` finds nothing. -/
lemma openCount_eq_zero_iff (g u : Nat) (db : ShiftsDb) :
    openCount g u db = 0 ↔ _get_open_shift g u db = none := by
  simp [openCount, _get_open_shift, List.countP_eq_zero, List.find?_eq_none]

/-- The freshly inserted row of `_start_shift` is open for its pair. -/
lemma isOpenFor_new (g u : Nat) (i : Nat) (t : Int) :
    isOpenFor g u ⟨i, u, g, t, none⟩ = true := by
  simp [isOpenFor]

/-- A successful `_start_shift` leaves its new row as the open shift of
the pair. -/
lemma get_open_shift_after_start (g u : Nat) (t : Int) (db db' : ShiftsDb)
    (h : _start_shift g u t db = (true, db')) :
    _get_open_shift g u db' = some ⟨db.nextId, u, g, t, none⟩ := by
  unfold _start_shift at h
  rcases hfind : _get_open_shift g u db with _ | r
  · rw [hfind] at h
    cases h
    unfold _get_open_shift at hfind ⊢
    simp [List.find?_append, hfind, isOpenFor_new]
  · rw [hfind] at h
    cases h

/-- `_start_shift` on a pair with an open shift fails and leaves the
store untouched. -/
lemma start_shift_of_open (g u : Nat) (t : Int) (db : ShiftsDb)
    (h : _get_open_shift g u db ≠ none) :
    _start_shift g u t db = (false, db) := by
  unfold _start_shift
  rcases hfind : _get_open_shift g u db with _ | r
  · exact absurd hfind h
  · rfl

/-- Closing a row never turns a closed row open: rows of the updated
list that are open for a pair were already open for it. -/
lemma isOpenFor_close (g u rid : Nat) (t : Int) (r : ShiftRow)
    (h : isOpenFor g u
      (if r.id == rid then { r with end_time := some t } else r) = true) :
    isOpenFor g u r = true := by
  by_cases hid : r.id == rid
  · rw [if_pos hid] at h
    simp [isOpenFor] at h
  · rwa [if_neg hid] at h

/-- `_end_shift` never increases the number of open rows of any pair. -/
lemma openCount_end_le (g u g' u' : Nat) (t : Int) (db : ShiftsDb) :
    openCount g u ((_end_shift g' u' t db).2) ≤ openCount g u db := by
  unfold _end_shift
  rcases hfind : _get_open_shift g' u' db with _ | r
  · simp
  · simp only [openCount, List.countP_map]
    exact List.countP_mono_left (fun x _ hx => isOpenFor_close g u r.id t x hx)

/-- When a predicate holds at most once in a list, every member
satisfying it is the one `find?` returns. -/
lemma find?_unique_of_countP_le_one {α : Type} {p : α → Bool} :
    ∀ {l : List α} {r : α}, l.countP p ≤ 1 → l.find? p = some r →
      ∀ x ∈ l, p x = true → x = r := by
  intro l
  induction l with
  | nil => intro r _ hfind; cases hfind
  | cons a tl ih =>
      intro r hcount hfind x hx hpx
      by_cases hpa : p a = true
      · rw [List.find?_cons_of_pos _ hpa] at hfind
        cases hfind
        rw [List.countP_cons_of_pos _ _ hpa] at hcount
        have htl : tl.countP p = 0 := by omega
        rcases List.mem_cons.mp hx with rfl | hx
        · rfl
        · exact absurd hpx (List.countP_eq_zero.mp htl x hx)
      · rw [List.find?_cons_of_neg _ hpa] at hfind
        rw [List.countP_cons_of_neg _ _ hpa] at hcount
        rcases List.mem_cons.mp hx with rfl | hx
        · exact absurd hpx hpa
        · exact ih hcount hfind x hx hpx

/-- `_start_shift` either leaves the store untouched (open shift
already present) or appends exactly the new row. -/
lemma start_shift_rows (g u : Nat) (t : Int) (db : ShiftsDb) :
    (_start_shift g u t db).2 = db ∨
    ((_start_shift g u t db).2 =
        { rows := db.rows ++ [⟨db.nextId, u, g, t, none⟩],
          nextId := db.nextId + 1 } ∧
      _get_open_shift g u db = none) := by
  unfold _start_shift
  rcases hfind : _get_open_shift g u db with _ | r
  · exact Or.inr ⟨rfl, rfl⟩
  · exact Or.inl rfl

lemma openCount_start_le (g u g' u' : Nat) (t : Int) (db : ShiftsDb)
    (h : openCount g u db ≤ 1) :
    openCount g u ((_start_shift g' u' t db).2) ≤ 1 := by
  rcases start_shift_rows g' u' t db with heq | ⟨heq, hfind⟩
  · rw [heq]; exact h
  · rw [heq]
    simp only [openCount, List.countP_append]
    by_cases hpair : u' = u ∧ g' = g
    · obtain ⟨rfl, rfl⟩ := hpair
      have h0 : List.countP (isOpenFor g' u') db.rows = 0 := by
        have h1 := (openCount_eq_zero_iff g' u' db).mpr hfind
        simpa [openCount] using h1
      rw [h0]
      have hnew := isOpenFor_new g' u' db.nextId t
      simp [List.countP_cons, List.countP_nil, hnew]
    · have hfalse : isOpenFor g u (⟨db.nextId, u', g', t, none⟩ : ShiftRow) = false := by
        by_cases hu : u' = u
        · by_cases hg : g' = g
          · exact absurd ⟨hu, hg⟩ hpair
          · simp [isOpenFor, hg]
        · simp [isOpenFor, hu]
      have h' : List.countP (isOpenFor g u) db.rows ≤ 1 := by
        simpa [openCount] using h
      simp [List.countP_cons, List.countP_nil, hfalse]
      omega

/-- Invariant step for `_end_shift`. -/
lemma openCount_end_le_one (g u g' u' : Nat) (t : Int) (db : ShiftsDb)
    (h : openCount g u db ≤ 1) :
    openCount g u ((_end_shift g' u' t db).2) ≤ 1 :=
  le_trans (openCount_end_le g u g' u' t db) h

/-- The store effect of `auto_end_for_inactivity`: nothing when the
guild is not found, else exactly the `_end_shift` effect (the DM
attempt happens after the UPDATE and never touches the store). -/
lemma auto_end_db (g? : Option Nat) (mf : Bool) (dm : DMOutcome)
    (u : Nat) (t : Int) (db : ShiftsDb) :
    (auto_end_for_inactivity g? mf dm u t db).2 =
      match g? with
      | none => db
      | some gid => (_end_shift gid u t db).2 := by
  rcases g? with _ | gid
  · rfl
  · show (auto_end_for_inactivity (some gid) mf dm u t db).2 =
      (_end_shift gid u t db).2
    rcases hend : _end_shift gid u t db with ⟨res, db'⟩
    simp only [auto_end_for_inactivity, hend]
    rcases res with _ | d
    · rfl
    · cases mf <;> cases dm <;> rfl

/-- Invariant step for any of the four store operations. -/
lemma openCount_applyOp_le (db : ShiftsDb) (op : ShiftOp) (g u : Nat)
    (h : openCount g u db ≤ 1) : openCount g u (applyOp db op) ≤ 1 := by
  rcases op with ⟨g', u', t⟩ | ⟨g', u', t⟩ | ⟨g', u', t⟩ | ⟨g?, mf, dm, u', t⟩
  · exact openCount_start_le g u g' u' t db h
  · exact openCount_end_le_one g u g' u' t db h
  · exact openCount_end_le_one g u g' u' t db h
  · show openCount g u (auto_end_for_inactivity g? mf dm u' t db).2 ≤ 1
    rw [auto_end_db]
    rcases g? with _ | gid
    · exact h
    · exact openCount_end_le_one g u gid u' t db h

/-- Invariant over whole operation sequences. -/
lemma openCount_applyOps_le (ops : List ShiftOp) :
    ∀ db : ShiftsDb, (∀ g u, openCount g u db ≤ 1) →
      ∀ g u, openCount g u (applyOps ops db) ≤ 1 := by
  induction ops with
  | nil => intro db h g u; exact h g u
  | cons op rest ih =>
      intro db h g u
      exact ih (applyOp db op)
        (fun g' u' => openCount_applyOp_le db op g' u' (h g' u')) g u

/-- A failed `_start_shift` leaves the store untouched, and it fails
exactly because an open shift exists. -/
lemma start_shift_failed (g u : Nat) (t : Int) (db : ShiftsDb)
    (h : (_start_shift g u t db).1 = false) :
    (_start_shift g u t db).2 = db ∧ _get_open_shift g u db ≠ none := by
  unfold _start_shift at h ⊢
  rcases hfind : _get_open_shift g u db with _ | r
  · rw [hfind] at h
    exact Bool.noConfusion h
  · exact ⟨rfl, by simp⟩

/-- `_end_shift` with no open shift is a no-op. -/
lemma end_shift_none (g u : Nat) (t : Int) (db : ShiftsDb)
    (h : _get_open_shift g u db = none) :
    _end_shift g u t db = (none, db) := by
  unfold _end_shift
  rw [h]

/-- Under the single-open-shift invariant, `_end_shift` on an open
shift returns its formatted duration and leaves the pair with no open
shift. -/
lemma end_shift_closes (g u : Nat) (t : Int) (db : ShiftsDb) (r : ShiftRow)
    (hfind : _get_open_shift g u db = some r) (hone : openCount g u db ≤ 1) :
    (_end_shift g u t db).1 = some (_format_duration (t - r.start_time)) ∧
    _get_open_shift g u ((_end_shift g u t db).2) = none := by
  unfold _end_shift
  rw [hfind]
  refine ⟨rfl, ?_⟩
  rw [← openCount_eq_zero_iff]
  simp only [openCount]
  rw [List.countP_eq_zero]
  intro y hy hpy
  rcases List.mem_map.mp hy with ⟨x, hx, rfl⟩
  have hpx := isOpenFor_close g u r.id t x hpy
  have hone' : db.rows.countP (isOpenFor g u) ≤ 1 := hone
  have hfind' : db.rows.find? (isOpenFor g u) = some r := hfind
  have hxr : x = r := find?_unique_of_countP_le_one hone' hfind' x hx hpx
  subst hxr
  simp [isOpenFor] at hpy

/-- A successful `_start_shift` leaves exactly one open shift for the
pair. -/
lemma openCount_after_start_success (g u : Nat) (t : Int) (db db' : ShiftsDb)
    (h : _start_shift g u t db = (true, db')) : openCount g u db' = 1 := by
  unfold _start_shift at h
  rcases hfind : _get_open_shift g u db with _ | r
  · rw [hfind] at h
    cases h
    have h0 : db.rows.countP (isOpenFor g u) = 0 := by
      have h1 := (openCount_eq_zero_iff g u db).mpr hfind
      simpa [openCount] using h1
    simp [openCount, List.countP_append, h0, List.countP_cons, isOpenFor_new]
  · rw [hfind] at h
    cases h

/-! ## Claim theorems -/

/-- C1.  Starting from an empty shifts store, after any sequence of
`_start_shift`, `_end_shift`, `_force_end_shift` and
`auto_end_for_inactivity` operations there is at most one open shift
(row with `end_time` NULL) per `(guild_id, user_id)` pair. -/
theorem c1_at_most_one_open_shift (ops : List ShiftOp) (g u : Nat) :
    openCount g u (applyOps ops emptyDb) ≤ 1 := by
  refine openCount_applyOps_le ops emptyDb (fun g' u' => ?_) g u
  simp [openCount, emptyDb]

/-- C2.  `_start_shift` while an open shift exists fails (the
`AlreadyActive` branch, which returns `False` with the already-active
message) and leaves the store unchanged; and a second `_start_shift`
immediately after a first one (no intervening `_end_shift`) always
fails this way. -/
theorem c2_start_shift_already_active (g u : Nat) (t₁ t₂ : Int)
    (db : ShiftsDb) :
    (_get_open_shift g u db ≠ none → _start_shift g u t₁ db = (false, db)) ∧
    _start_shift g u t₂ ((_start_shift g u t₁ db).2) =
      (false, (_start_shift g u t₁ db).2) := by
  refine ⟨start_shift_of_open g u t₁ db, ?_⟩
  apply start_shift_of_open
  rcases hok : (_start_shift g u t₁ db) with ⟨ok, db'⟩
  cases ok
  · have hfail := start_shift_failed g u t₁ db (by rw [hok])
    have hdb : db' = db := by
      have h2 := hfail.1
      rw [hok] at h2
      exact h2
    rw [hdb]
    exact hfail.2
  · rw [get_open_shift_after_start g u t₁ db db' hok]
    simp

/-- C4.  `_end_shift` and `_force_end_shift` on a user with no open
shift fail (`NoActiveShift`: they return `(False, None)`) and leave the
store unchanged. -/
theorem c4_end_shift_no_active (g u : Nat) (t : Int) (db : ShiftsDb)
    (h : _get_open_shift g u db = none) :
    _end_shift g u t db = (none, db) ∧ _force_end_shift g u t db = (none, db) :=
  ⟨end_shift_none g u t db h, end_shift_none g u t db h⟩

/-- C3.  `_end_shift` at time `t` on an open shift started at `s`
succeeds, returns the formatted duration `t - s`, and closes the open
shift; `_start_shift` immediately followed by `_end_shift` at the same
instant yields the zero duration `"0s"` and leaves no open shift. -/
theorem c3_end_shift_success (g u : Nat) (t : Int) (db db₂ : ShiftsDb)
    (r : ShiftRow) :
    (_get_open_shift g u db = some r → openCount g u db ≤ 1 →
      (_end_shift g u t db).1 = some (_format_duration (t - r.start_time)) ∧
      _get_open_shift g u ((_end_shift g u t db).2) = none) ∧
    ((_start_shift g u t db₂).1 = true →
      (_end_shift g u t ((_start_shift g u t db₂).2)).1 = some "0s" ∧
      _get_open_shift g u
        ((_end_shift g u t ((_start_shift g u t db₂).2)).2) = none) := by
  constructor
  · intro hfind hone
    exact end_shift_closes g u t db r hfind hone
  · intro hstart
    rcases hok : (_start_shift g u t db₂) with ⟨ok, db'⟩
    rw [hok] at hstart
    subst hstart
    have hfind' := get_open_shift_after_start g u t db₂ db' hok
    have hone' : openCount g u db' ≤ 1 :=
      le_of_eq (openCount_after_start_success g u t db₂ db' hok)
    have hc := end_shift_closes g u t db' _ hfind' hone'
    refine ⟨?_, hc.2⟩
    have h1 := hc.1
    rw [sub_self] at h1
    exact h1

/-- Joining a non-empty list of non-empty strings with spaces gives a
non-empty string. -/
lemma joinSpace_length_pos :
    ∀ l : List String, l ≠ [] → (∀ p ∈ l, 0 < p.length) →
      0 < (joinSpace l).length
  | [], h, _ => absurd rfl h
  | [p], _, hmem => by simpa [joinSpace] using hmem p (by simp)
  | p :: q :: rest, _, hmem => by
      have hp := hmem p (by simp)
      show 0 < (p ++ " " ++ joinSpace (q :: rest)).length
      rw [String.length_append, String.length_append]
      omega

/-- The final `if sec or not parts` step of `_format_duration` never
leaves the parts list empty. -/
lemma final_parts_ne_nil (sec : Nat) (parts : List String) :
    (if sec ≠ 0 || parts.isEmpty then parts ++ [toString sec ++ "s"]
     else parts) ≠ [] := by
  split
  · simp
  · next h =>
      simp only [Bool.or_eq_true, decide_eq_true_eq, List.isEmpty_iff] at h
      intro hnil
      exact h (Or.inr hnil)

/-- The parts list of `_format_duration` is never empty. -/
lemma durationParts_ne_nil (s : Nat) : durationParts s ≠ [] := by
  unfold durationParts
  exact final_parts_ne_nil _ _

/-- A member of an optional one-element part list is that part. -/
lemma mem_opt_part {n : Nat} {suf p : String}
    (hp : p ∈ (if n ≠ 0 then [toString n ++ suf] else [])) :
    p = toString n ++ suf := by
  split at hp
  · simpa using hp
  · simp at hp

/-- A rendered part `toString n ++ suf` with a non-empty suffix is
non-empty. -/
lemma part_length_pos (n : Nat) (suf : String) (hsuf : 0 < suf.length) :
    0 < (toString n ++ suf).length := by
  rw [String.length_append]
  omega

/-- A member of the final parts list is an original part or the
seconds part. -/
lemma mem_final_parts {sec : Nat} {parts : List String} {p : String}
    (hp : p ∈ (if sec ≠ 0 || parts.isEmpty then parts ++ [toString sec ++ "s"]
               else parts)) :
    p ∈ parts ∨ p = toString sec ++ "s" := by
  split at hp
  · rcases List.mem_append.mp hp with h | h
    · exact Or.inl h
    · exact Or.inr (by simpa using h)
  · exact Or.inl hp

/-- Every part produced by `_format_duration` is a non-empty string. -/
lemma durationParts_mem_pos (s : Nat) :
    ∀ p ∈ durationParts s, 0 < p.length := by
  intro p hp
  unfold durationParts at hp
  dsimp only [] at hp
  rcases mem_final_parts hp with hp | rfl
  · rcases List.mem_append.mp hp with hp | hp
    · rw [mem_opt_part hp]
      exact part_length_pos _ _ (by decide)
    · rw [mem_opt_part hp]
      exact part_length_pos _ _ (by decide)
  · exact part_length_pos _ _ (by decide)

/-- C10.  `_format_duration` is total and never returns the empty
string, it clamps negative inputs to zero (rendering `"0s"`), and its
output depends only on the clamped value, so no reported shift duration
is ever rendered negative. -/
theorem c10_format_duration_clamps (s : Int) :
    _format_duration s ≠ "" ∧
    (s < 0 → _format_duration s = "0s") ∧
    _format_duration s = _format_duration (max 0 s) := by
  refine ⟨?_, ?_, ?_⟩
  · have hlen : 0 < (_format_duration s).length := by
      unfold _format_duration
      exact joinSpace_length_pos _ (durationParts_ne_nil _)
        (durationParts_mem_pos _)
    intro h
    rw [h] at hlen
    exact absurd hlen (by decide)
  · intro hneg
    unfold _format_duration
    rw [max_eq_left hneg.le]
    rfl
  · unfold _format_duration
    rw [← max_assoc, max_self]

/-- Witness for C10 at the concrete input `-5`. -/
theorem c10_witness : _format_duration (-5) = "0s" :=
  (c10_format_duration_clamps (-5)).2.1 (by decide)

/-- Skipping a registry write for a different user does not change a
user's presence. -/
lemma is_present_cons_ne (v u : Nat) (b : Bool) (s : PresenceState)
    (h : v ≠ u) : is_present ((v, b) :: s) u = is_present s u := by
  unfold is_present
  rw [List.find?_cons_of_neg]
  simp [h]

/-- Registry events that never touch a user leave the user absent. -/
lemma applyPresenceOps_untouched (u : Nat) :
    ∀ (ops : List PresenceOp) (s : PresenceState),
      is_present s u = false → (∀ op ∈ ops, op.uid ≠ u) →
      is_present (applyPresenceOps ops s) u = false := by
  intro ops
  induction ops with
  | nil => intro s h _; exact h
  | cons op rest ih =>
      intro s h hops
      have hop : op.uid ≠ u := hops op (by simp)
      refine ih (applyPresenceOp s op) ?_ (fun o ho => hops o (by simp [ho]))
      rcases op with v | v
      · simpa [applyPresenceOp, mark_present]
          using (is_present_cons_ne v u true s hop).trans h
      · simpa [applyPresenceOp, mark_absent]
          using (is_present_cons_ne v u false s hop).trans h

/-- C5.  `mark_present(u)` makes `is_present(u)` (and hence
`is_in_game`) true, a subsequent `mark_absent(u)` makes it false, and a
user never touched by either operation reads false (the query is total
and never raises). -/
theorem c5_presence_registry (s : PresenceState) (u : Nat)
    (ops : List PresenceOp) :
    is_present (mark_present u s) u = true ∧
    is_in_game (mark_present u s) u = true ∧
    is_present (mark_absent u (mark_present u s)) u = false ∧
    ((∀ op ∈ ops, op.uid ≠ u) →
      is_present (applyPresenceOps ops emptyPresence) u = false) := by
  refine ⟨?_, ?_, ?_, ?_⟩
  · simp [is_present, mark_present, List.find?_cons_of_pos]
  · simp [is_in_game, is_present, mark_present, List.find?_cons_of_pos]
  · simp [is_present, mark_absent, mark_present, List.find?_cons_of_pos]
  · exact applyPresenceOps_untouched u ops emptyPresence rfl

/-- Witness for C5: user 5 untouched by events on user 3. -/
theorem c5_witness :
    is_present (mark_present 5 emptyPresence) 5 = true ∧
    is_present (applyPresenceOps [PresenceOp.pres 3] emptyPresence) 5 = false :=
  ⟨(c5_presence_registry emptyPresence 5 [PresenceOp.pres 3]).1,
   (c5_presence_registry emptyPresence 5 [PresenceOp.pres 3]).2.2.2 (by decide)⟩

/-- C6 counterexample.  The claim says every manually initiated shift
start succeeds only when the presence registry reports the user
present, but the `Start` button of the `/clockmanage` panel
(`ClockManageView.start_button`) calls `_start_shift` with no
`is_in_game` check: here user 2, whom the registry reports absent,
starts a shift through the panel and it succeeds. -/
theorem c6_counterexample :
    (start_button true 1 2 0 emptyDb).1 = PanelStartResult.started ∧
    is_in_game emptyPresence 2 = false := by
  constructor
  · rfl
  · rfl

/-- C6 amended.  `/startclock` (`ShiftTracking.startclock`) gates on
presence: it reaches `started` only when `is_in_game` is true, and for
a supervisor who is not in the game it fails with the not-in-game
message and inserts no record; the `/clockmanage` panel's `Start`
button, however, performs no presence check. -/
theorem c6_startclock_presence_gate (g? : Option Nat) (gid : Nat)
    (sup : Bool) (p : PresenceState) (u : Nat) (t : Int) (db : ShiftsDb) :
    ((startclock g? sup p u t db).1 = StartclockResult.started →
      is_in_game p u = true) ∧
    (is_in_game p u = false →
      startclock (some gid) true p u t db = (StartclockResult.notInGame, db)) := by
  constructor
  · intro hres
    rcases g? with _ | gid'
    · exact absurd hres (by simp [startclock])
    · by_cases hsup : sup
      · by_cases hgame : is_in_game p u
        · exact hgame
        · rw [Bool.not_eq_true] at hgame
          simp [startclock, hsup, hgame] at hres
      · rw [Bool.not_eq_true] at hsup
        simp [startclock, hsup] at hres
  · intro hgame
    simp [startclock, hgame]

/-- Witness for C6 amended: a supervisor not in the game gets the
not-in-game refusal from `/startclock` with the store untouched. -/
theorem c6_witness :
    startclock (some 1) true emptyPresence 2 0 emptyDb =
      (StartclockResult.notInGame, emptyDb) :=
  (c6_startclock_presence_gate (some 1) 1 true emptyPresence 2 0 emptyDb).2 rfl

/-- `auto_end_for_inactivity` with no open shift: returns `False`,
touches nothing, raises nothing (the DM attempt is never reached). -/
lemma auto_end_no_shift (gid : Nat) (mf : Bool) (dm : DMOutcome) (u : Nat)
    (t : Int) (db : ShiftsDb) (h : _get_open_shift gid u db = none) :
    auto_end_for_inactivity (some gid) mf dm u t db = (.ok false, db) := by
  have he := end_shift_none gid u t db h
  simp [auto_end_for_inactivity, he]

/-- `auto_end_for_inactivity` with an open shift and a non-raising DM
outcome returns `True` with the `_end_shift` store update. -/
lemma auto_end_success (gid : Nat) (mf : Bool) (dm : DMOutcome) (u : Nat)
    (t : Int) (db : ShiftsDb) (r : ShiftRow)
    (hfind : _get_open_shift gid u db = some r)
    (hdm : mf = false ∨ dm ≠ DMOutcome.otherError) :
    auto_end_for_inactivity (some gid) mf dm u t db =
      (.ok true, (_end_shift gid u t db).2) := by
  have hend1 : (_end_shift gid u t db).1 =
      some (_format_duration (t - r.start_time)) := by
    unfold _end_shift
    rw [hfind]
  rcases hend : _end_shift gid u t db with ⟨res, db'⟩
  rw [hend] at hend1
  have hres : res = some (_format_duration (t - r.start_time)) := hend1
  subst hres
  simp only [auto_end_for_inactivity, hend]
  rcases hdm with rfl | hne
  · rfl
  · cases mf
    · rfl
    · cases dm
      · rfl
      · rfl
      · exact absurd rfl hne

/-- A concrete store holding one open shift of user 7 in guild 9. -/
def dbOpen79 : ShiftsDb := { rows := [⟨1, 7, 9, 10, none⟩], nextId := 2 }

/-- C7.  `auto_end_for_inactivity` on a user with no open shift returns
`False` and changes nothing; on a user with an open shift it closes the
shift like `_end_shift` and returns `True`, and an immediate second
call returns `False`. -/
theorem c7_auto_end_semantics (gid : Nat) (mf mf' : Bool) (dm dm' : DMOutcome)
    (u : Nat) (t t' : Int) (db : ShiftsDb) (r : ShiftRow) :
    (_get_open_shift gid u db = none →
      auto_end_for_inactivity (some gid) mf dm u t db = (.ok false, db)) ∧
    (_get_open_shift gid u db = some r → openCount gid u db ≤ 1 →
      (mf = false ∨ dm ≠ DMOutcome.otherError) →
      auto_end_for_inactivity (some gid) mf dm u t db =
        (.ok true, (_end_shift gid u t db).2) ∧
      _get_open_shift gid u ((_end_shift gid u t db).2) = none ∧
      auto_end_for_inactivity (some gid) mf' dm' u t'
          ((_end_shift gid u t db).2) =
        (.ok false, (_end_shift gid u t db).2)) := by
  refine ⟨auto_end_no_shift gid mf dm u t db, ?_⟩
  intro hfind hone hdm
  have hclosed := (end_shift_closes gid u t db r hfind hone).2
  exact ⟨auto_end_success gid mf dm u t db r hfind hdm, hclosed,
    auto_end_no_shift gid mf' dm' u t' _ hclosed⟩

/-- Witness for C7: the open shift of user 7 in guild 9 is auto-ended
(returning `True`), and an immediately repeated call returns `False`. -/
theorem c7_witness :
    auto_end_for_inactivity (some 9) true DMOutcome.forbidden 7 25 dbOpen79 =
      (.ok true, (_end_shift 9 7 25 dbOpen79).2) ∧
    auto_end_for_inactivity (some 9) false DMOutcome.delivered 7 30
        ((_end_shift 9 7 25 dbOpen79).2) =
      (.ok false, (_end_shift 9 7 25 dbOpen79).2) ∧
    auto_end_for_inactivity (some 9) true DMOutcome.delivered 8 25 dbOpen79 =
      (.ok false, dbOpen79) := by
  have h := (c7_auto_end_semantics 9 true false DMOutcome.forbidden
    DMOutcome.delivered 7 25 30 dbOpen79 ⟨1, 7, 9, 10, none⟩).2
    (by decide) (by decide) (Or.inr (by decide))
  exact ⟨h.1, h.2.2,
    (c7_auto_end_semantics 9 true false DMOutcome.delivered
      DMOutcome.delivered 8 25 30 dbOpen79 ⟨1, 7, 9, 10, none⟩).1 (by decide)⟩

/-- C8 counterexample.  The claim says `auto_end_for_inactivity` never
raises for any outcome of the DM attempt, but the `try`/`except` around
`member.send` catches only `discord.Forbidden`: with an open shift and
a DM failure other than `Forbidden` (e.g. `discord.HTTPException`), the
exception propagates to the caller. -/
theorem c8_counterexample :
    (auto_end_for_inactivity (some 9) true DMOutcome.otherError 7 25
      dbOpen79).1 = Except.error () := by
  rfl

/-- C8 amended.  `auto_end_for_inactivity` returns its boolean result
without raising whenever the DM attempt is delivered or refused with
`Forbidden` (the disabled-DMs case named by the spec), whenever the
member is not found (no DM attempted), and whenever the user has no
open shift (the DM attempt is never reached); only a non-`Forbidden`
delivery exception propagates. -/
theorem c8_no_raise_amended (g? : Option Nat) (mf : Bool) (dm : DMOutcome)
    (u : Nat) (t : Int) (db : ShiftsDb)
    (h : dm ≠ DMOutcome.otherError ∨ mf = false ∨
      (∀ gid, g? = some gid → _get_open_shift gid u db = none)) :
    ∃ b db', auto_end_for_inactivity g? mf dm u t db = (Except.ok b, db') := by
  rcases g? with _ | gid
  · exact ⟨false, db, rfl⟩
  · rcases hfind : _get_open_shift gid u db with _ | r
    · exact ⟨false, db, auto_end_no_shift gid mf dm u t db hfind⟩
    · rcases h with hne | hmf | hnone
      · exact ⟨true, _, auto_end_success gid mf dm u t db r hfind (Or.inr hne)⟩
      · exact ⟨true, _, auto_end_success gid mf dm u t db r hfind (Or.inl hmf)⟩
      · exact absurd (hnone gid rfl) (by simp [hfind])

/-- Witness for C8 amended: a `Forbidden` DM failure is swallowed. -/
theorem c8_witness :
    ∃ b db', auto_end_for_inactivity (some 9) true DMOutcome.forbidden 7 25
      dbOpen79 = (Except.ok b, db') :=
  c8_no_raise_amended (some 9) true DMOutcome.forbidden 7 25 dbOpen79
    (Or.inl (by decide))

/-- Running a concatenated trace runs the pieces in order. -/
lemma runFollowupTrace_append (l₁ l₂ : List FollowupEvent)
    (w : FollowupWorld) :
    runFollowupTrace (l₁ ++ l₂) w =
      runFollowupTrace l₂ (runFollowupTrace l₁ w) := by
  induction l₁ generalizing w with
  | nil => rfl
  | cons e es ih => exact ih (applyFollowupEvent w e)

/-- A coroutine resumption never changes the tracker entry. -/
lemma stepFollowup_info (tm : Int) (w : FollowupWorld) :
    (stepFollowup tm w).info = w.info := by
  obtain ⟨info, phase, posted⟩ := w
  cases phase <;> cases info <;>
    simp only [stepFollowup] <;> (try split_ifs) <;> rfl

/-- A coroutine resumption strictly before the scheduled instant never
posts. -/
lemma stepFollowup_posted (tm : Int) (w : FollowupWorld)
    (h : ∀ i, w.info = some i → tm < i.whenT) :
    (stepFollowup tm w).posted = w.posted := by
  obtain ⟨info, phase, posted⟩ := w
  cases phase with
  | started =>
      cases info with
      | none => rfl
      | some i0 =>
          have hlt := h i0 rfl
          simp only [stepFollowup]
          by_cases hc : i0.canceled
          · rw [if_pos hc]
          · rw [if_neg hc, if_pos hlt]
  | sleeping =>
      cases info with
      | none => rfl
      | some i0 =>
          have hlt := h i0 rfl
          simp only [stepFollowup]
          rw [if_pos hlt]
  | finished => rfl

/-- `cancelshift` never posts. -/
lemma cancelshift_posted (w : FollowupWorld) :
    (cancelshift w).posted = w.posted := by
  obtain ⟨info, phase, posted⟩ := w
  cases phase <;> cases info <;> rfl

/-- `cancelshift` always leaves the coroutine finished. -/
lemma cancelshift_phase (w : FollowupWorld) :
    (cancelshift w).phase = CoroPhase.finished := by
  obtain ⟨info, phase, posted⟩ := w
  cases phase <;> cases info <;> rfl

/-- `cancelshift` preserves the scheduled instant of the tracker
entry. -/
lemma cancelshift_whenT (T : Int) (w : FollowupWorld)
    (h : ∀ i, w.info = some i → i.whenT = T) :
    ∀ i, (cancelshift w).info = some i → i.whenT = T := by
  obtain ⟨info, phase, posted⟩ := w
  intro i hi
  rcases info with _ | i0
  · cases phase <;> exact Option.noConfusion hi
  · have hT := h i0 rfl
    cases phase <;> simp [cancelshift] at hi <;> rw [← hi] <;> exact hT

/-- Invariant up to the cancel: while every resumption happens strictly
before the scheduled instant, nothing is posted and the scheduled
instant is preserved. -/
lemma no_post_before (T : Int) :
    ∀ (pre : List FollowupEvent) (w : FollowupWorld),
      w.posted = 0 → (∀ i, w.info = some i → i.whenT = T) →
      (∀ t, FollowupEvent.run t ∈ pre → t < T) →
      (runFollowupTrace pre w).posted = 0 ∧
      (∀ i, (runFollowupTrace pre w).info = some i → i.whenT = T) := by
  intro pre
  induction pre with
  | nil => intro w h1 h2 _; exact ⟨h1, h2⟩
  | cons e es ih =>
      intro w h1 h2 hpre
      have hstep : (applyFollowupEvent w e).posted = 0 ∧
          (∀ i, (applyFollowupEvent w e).info = some i → i.whenT = T) := by
        cases e with
        | run tm =>
            have htm : tm < T := hpre tm (by simp)
            refine ⟨?_, ?_⟩
            · rw [show (applyFollowupEvent w (FollowupEvent.run tm)) =
                stepFollowup tm w from rfl]
              rw [stepFollowup_posted tm w
                (fun i hi => (h2 i hi) ▸ htm)]
              exact h1
            · intro i hi
              rw [show (applyFollowupEvent w (FollowupEvent.run tm)) =
                stepFollowup tm w from rfl, stepFollowup_info] at hi
              exact h2 i hi
        | cancel =>
            exact ⟨(cancelshift_posted w).trans h1,
              cancelshift_whenT T w h2⟩
      exact ih _ hstep.1 hstep.2 (fun t ht => hpre t (by simp [ht]))

/-- Once the coroutine is finished with nothing posted, no further
events ever post. -/
lemma finished_stays :
    ∀ (es : List FollowupEvent) (w : FollowupWorld),
      w.posted = 0 → w.phase = CoroPhase.finished →
      (runFollowupTrace es w).posted = 0 := by
  intro es
  induction es with
  | nil => intro w h _; exact h
  | cons e rest ih =>
      intro w h hph
      cases e with
      | run tm =>
          have hstep : stepFollowup tm w = w := by
            unfold stepFollowup
            rw [hph]
          show (runFollowupTrace rest (stepFollowup tm w)).posted = 0
          rw [hstep]
          exact ih w h hph
      | cancel =>
          refine ih (cancelshift w) ?_ (cancelshift_phase w)
          rw [cancelshift_posted]
          exact h

/-- C9.  Cancelling a scheduled follow-up before its target instant
(every coroutine resumption before the cancel happens strictly before
the scheduled time `T`) guarantees the follow-up action never runs, in
that trace and forever after; and cancelling after the coroutine
already finished never changes the number of times the action ran
(no double-run) and is total (no error). -/
theorem c9_cancel_followup (T : Int) (pre post : List FollowupEvent)
    (w : FollowupWorld) :
    ((∀ t, FollowupEvent.run t ∈ pre → t < T) →
      (runFollowupTrace (pre ++ FollowupEvent.cancel :: post)
        (initialFollowup T)).posted = 0) ∧
    (w.phase = CoroPhase.finished → (cancelshift w).posted = w.posted) := by
  constructor
  · intro hpre
    rw [runFollowupTrace_append]
    have hinv := no_post_before T pre (initialFollowup T) rfl
      (by intro i hi; cases hi; rfl) hpre
    show (runFollowupTrace post
      (cancelshift (runFollowupTrace pre (initialFollowup T)))).posted = 0
    refine finished_stays post _ ?_ (cancelshift_phase _)
    rw [cancelshift_posted]
    exact hinv.1
  · intro _
    exact cancelshift_posted w

/-- A finished world in which the follow-up action already ran once. -/
def firedWorld : FollowupWorld :=
  { info := none, phase := CoroPhase.finished, posted := 1 }

/-- Witness for C9: a resumption at 0, a cancel, then a resumption past
the scheduled instant 10 — nothing is posted; and cancelling a finished
world with one post keeps it at one. -/
theorem c9_witness :
    (runFollowupTrace
      ([FollowupEvent.run 0] ++ FollowupEvent.cancel :: [FollowupEvent.run 20])
      (initialFollowup 10)).posted = 0 ∧
    (cancelshift firedWorld).posted = 1 := by
  constructor
  · refine (c9_cancel_followup 10 [FollowupEvent.run 0] [FollowupEvent.run 20]
      (initialFollowup 10)).1 ?_
    intro t ht
    simp at ht
    omega
  · exact (c9_cancel_followup 10 [] [] firedWorld).2 rfl

/-- Witness for C2: starting on an existing open shift fails and leaves
the store unchanged, and a second start right after a first always
fails. -/
theorem c2_witness :
    _start_shift 9 7 25 dbOpen79 = (false, dbOpen79) ∧
    _start_shift 9 7 26 ((_start_shift 9 7 25 emptyDb).2) =
      (false, (_start_shift 9 7 25 emptyDb).2) :=
  ⟨(c2_start_shift_already_active 9 7 25 26 dbOpen79).1 (by decide),
   (c2_start_shift_already_active 9 7 25 26 emptyDb).2⟩

/-- Witness for C3: ending the open shift of user 7 at time 40 yields
the formatted `40 - 10` duration and closes it; an immediate
start-then-end round trip yields `"0s"` and no open shift. -/
theorem c3_witness :
    ((_end_shift 9 7 40 dbOpen79).1 = some (_format_duration (40 - 10)) ∧
      _get_open_shift 9 7 ((_end_shift 9 7 40 dbOpen79).2) = none) ∧
    ((_end_shift 9 7 40 ((_start_shift 9 7 40 emptyDb).2)).1 = some "0s" ∧
      _get_open_shift 9 7
        ((_end_shift 9 7 40 ((_start_shift 9 7 40 emptyDb).2)).2) = none) := by
  have h := c3_end_shift_success 9 7 40 dbOpen79 emptyDb ⟨1, 7, 9, 10, none⟩
  exact ⟨h.1 (by decide) (by decide), h.2 (by decide)⟩

/-- Witness for C4: ending with no open shift is a failing no-op. -/
theorem c4_witness :
    _end_shift 9 7 25 emptyDb = (none, emptyDb) ∧
    _force_end_shift 9 7 25 emptyDb = (none, emptyDb) :=
  c4_end_shift_no_active 9 7 25 emptyDb (by decide)
